import Mathlib

/-!
Shallow embedding of the aquefir/bigint signed-bigint operations
(src/src/bigint.c, src/include/bigint.h).

Representation: `struct bigint_s` holds a little-endian octet buffer `data`
and a size `sz` in octets; for the signed type capacity always equals `sz`
(the header: "all unused octets can be left zero, so no need to distinguish
it from capacity"), and every constructor allocates exactly `sz` octets.
We model the struct by its buffer, a `List Nat` of octets, and derive
`sz` as the buffer length.  An out-of-range buffer access in C is undefined
behaviour; in the embedding a read is `data[i]?` and a computation that
performs an out-of-range read returns `none`.

The index variables of the C loops have type `u16`, so `--i` at `i = 0`
wraps to `65535`; `u16dec` models that decrement.  Loops whose C exit
condition can never become false are given explicit fuel; exhausting the
fuel also yields `none`.
-/

/-- C enum `bigint_cmp_retval` (include/bigint.h). -/
inductive BigintCmpRetval where
  | BIGINT_FALSE
  | BIGINT_TRUE
  | BIGINT_UNDEFINED
deriving DecidableEq, Repr

export BigintCmpRetval (BIGINT_FALSE BIGINT_TRUE BIGINT_UNDEFINED)

/-- C `struct bigint_s`: the octet buffer, least-significant octet first.
`sz` equals the buffer length (capacity == sz for the signed struct). -/
structure BigintS where
  data : List Nat
deriving DecidableEq, Repr

/-- The `sz` field of `struct bigint_s`: the buffer length in octets. -/
def BigintS.sz (v : BigintS) : Nat := v.data.length

/-- Decrement of a `u16` loop index: wraps from 0 to 65535. -/
def u16dec (i : Nat) : Nat := if i = 0 then 65535 else i - 1

/-- `bigint_s_init(sz)`: zero-initialise the struct; if `sz > 0` allocate
`sz` zero-filled octets (`uni_alloc0`). -/
def bigint_s_init (sz : Nat) : BigintS :=
  if sz > 0 then ⟨List.replicate sz 0⟩ else ⟨[]⟩

/-- The `sizeof n` little-endian octets of the two's-complement bit pattern
of `n`, as copied by `uni_memcpy(ret.data, &n, sizeof n)`. -/
def leBytes (k : Nat) (n : Int) : List Nat :=
  (List.range k).map fun i => ((n % ((2 : Int) ^ (8 * k))).toNat >>> (8 * i)) % 256

/-- `bigint_s_make64(n)`: `init(sizeof n)` then copy the 8 bytes of `n`
into the buffer, little-endian; `ret.sz = sizeof n`. -/
def bigint_s_make64 (n : Int) : BigintS := ⟨leBytes 8 n⟩

/-- `bigint_s_make32(n)`: as `make64` with 4 bytes. -/
def bigint_s_make32 (n : Int) : BigintS := ⟨leBytes 4 n⟩

/-- `bigint_s_make16(n)`: as `make64` with 2 bytes. -/
def bigint_s_make16 (n : Int) : BigintS := ⟨leBytes 2 n⟩

/-- `bigint_s_make8(n)`: as `make64` with 1 byte. -/
def bigint_s_make8 (n : Int) : BigintS := ⟨leBytes 1 n⟩

/-- The scan loop of `bigint_s_dup`:
`for(i = ret.sz - 1, new_sz = ret.sz; i >= 0; --i) new_sz -= ret.data[i] == 0 ? 1 : 0;`
`i` is a `u16`, so the condition `i >= 0` is always true and the only exits
in the C abstract machine are undefined behaviour (the loop itself never
ends); the `else` branch below is the loop's fall-through, dead as in C. -/
def dupLoop (data : List Nat) : Nat → Nat → Nat → Option Nat
  | 0, _, _ => none
  | fuel + 1, i, new_sz =>
    if i ≥ 0 then
      match data[i]? with
      | none => none
      | some x => dupLoop data fuel (u16dec i) (new_sz - (if x = 0 then 1 else 0))
    else some new_sz

/-- `bigint_s_dup(in)`: copy the struct, run the trimming scan, and if the
scan decided a smaller size, allocate `new_sz` octets with plain `uni_alloc`
(uninitialised: modelled as an unspecified all-zero block, reachable only if
the scan exits) and free the original buffer without copying any octets. -/
def bigint_s_dup (fuel : Nat) (inp : BigintS) : Option BigintS :=
  match dupLoop inp.data fuel (u16dec inp.sz) inp.sz with
  | none => none
  | some new_sz =>
    if new_sz ≠ inp.sz then some ⟨List.replicate new_sz 0⟩ else some inp

/-- `isnegative(in)`: `in->data[in->sz - 1] >> 7` (sign bit of the
most-significant octet); `in->sz - 1` is a `u16` subtraction. -/
def isnegative (v : BigintS) : Option Nat :=
  match v.data[u16dec v.sz]? with
  | none => none
  | some x => some (x >>> 7)

/-- The in-place sign-bit clearing of `bigint_s_cmp_impl`:
`a->data[a->sz - 1] = a->data[a->sz - 1] & 0x7F;` -/
def maskSignOctet (v : BigintS) : Option BigintS :=
  match v.data[u16dec v.sz]? with
  | none => none
  | some x => some ⟨v.data.set (u16dec v.sz) (x &&& 127)⟩

/-- The size-mismatch pre-scan of `bigint_s_cmp_impl`:
`for(i = big->sz - 1; i >= sml_sz; --i) if(big->data[i] != 0) return ...;`
Result `some (some r)` is an early return, `some none` the fall-through. -/
def cmpBigLoop (bigdata : List Nat) (sml_sz : Nat) (ret : BigintCmpRetval) :
    Nat → Nat → Option (Option BigintCmpRetval)
  | 0, _ => none
  | fuel + 1, i =>
    if i ≥ sml_sz then
      match bigdata[i]? with
      | none => none
      | some x =>
        if x ≠ 0 then some (some ret)
        else cmpBigLoop bigdata sml_sz ret fuel (u16dec i)
    else some none

/-- The final octet scan of `bigint_s_cmp_impl`:
`for(i = sml_sz; i >= 0; --i) { if(a->data[i] > b->data[i]) ... }`.
`i` is a `u16`, so `i >= 0` is always true and the fall-through branch is
dead, exactly as in the C source. -/
def cmpScanLoop (adata bdata : List Nat) (a_neg : Nat) :
    Nat → Nat → Option (Option BigintCmpRetval)
  | 0, _ => none
  | fuel + 1, i =>
    if i ≥ 0 then
      match adata[i]?, bdata[i]? with
      | some x, some y =>
        if x > y then some (some (if a_neg ≠ 0 then BIGINT_FALSE else BIGINT_TRUE))
        else if x < y then some (some (if a_neg ≠ 0 then BIGINT_TRUE else BIGINT_FALSE))
        else cmpScanLoop adata bdata a_neg fuel (u16dec i)
      | _, _ => none
    else some none

/-- The `if(a->sz != b->sz)` block of `bigint_s_cmp_impl`: pick the larger
operand (`a_big ? a : b`), compute `sml_sz` as the smaller size, and zip
down the larger operand's high octets with `cmpBigLoop`.  When the sizes
are equal the block is skipped (`some none`, fall through to the scan). -/
def cmpPre (a2 b2 : BigintS) (a_neg : Nat) (fuel : Nat) :
    Option (Option BigintCmpRetval) :=
  if a2.sz ≠ b2.sz then
    cmpBigLoop (if a2.sz > b2.sz then a2 else b2).data (min a2.sz b2.sz)
      (if a2.sz > b2.sz then
         (if a_neg ≠ 0 then BIGINT_FALSE else BIGINT_TRUE)
       else
         (if a_neg ≠ 0 then BIGINT_TRUE else BIGINT_FALSE))
      fuel (u16dec (if a2.sz > b2.sz then a2 else b2).sz)
  else some none

/-- `bigint_s_cmp_impl(a, b, orequ)`.  The first component is the returned
`enum bigint_cmp_retval` (`none` when the execution runs into undefined
behaviour or the fuel ends); the second and third components are the
caller-visible buffers of `a` and `b` at that point — the struct is passed
to `cmp_gt`/`cmp_ge` by value but `data` is a pointer into the caller's
heap, so writes through it are caller-visible. -/
def bigint_s_cmp_impl (fuel : Nat) (a b : BigintS) (orequ : Bool) :
    Option BigintCmpRetval × BigintS × BigintS :=
  if a.sz = 0 ∨ b.sz = 0 then
    (some BIGINT_UNDEFINED, a, b)
  else
    match isnegative a, isnegative b with
    | some a_neg, some b_neg =>
      if a_neg ≠ b_neg then
        (some (if b_neg ≠ 0 then BIGINT_TRUE else BIGINT_FALSE), a, b)
      else
        match maskSignOctet a, maskSignOctet b with
        | some a2, some b2 =>
          match cmpPre a2 b2 a_neg fuel with
          | none => (none, a2, b2)
          | some (some r) => (some r, a2, b2)
          | some none =>
            match cmpScanLoop a2.data b2.data a_neg fuel (min a2.sz b2.sz) with
            | none => (none, a2, b2)
            | some (some r) => (some r, a2, b2)
            | some none => (some (if orequ then BIGINT_TRUE else BIGINT_FALSE), a2, b2)
        | _, _ => (none, a, b)
    | _, _ => (none, a, b)

/-- `bigint_s_cmp_gt(a, b)`: `bigint_s_cmp_impl(&a, &b, 0)`. -/
def bigint_s_cmp_gt (fuel : Nat) (a b : BigintS) :
    Option BigintCmpRetval × BigintS × BigintS :=
  bigint_s_cmp_impl fuel a b false

/-- `bigint_s_cmp_ge(a, b)`: `bigint_s_cmp_impl(&a, &b, 1)`. -/
def bigint_s_cmp_ge (fuel : Nat) (a b : BigintS) :
    Option BigintCmpRetval × BigintS × BigintS :=
  bigint_s_cmp_impl fuel a b true

/-- The octet loop of `bigint_s_cmp_eq`:
`for(i = 0; i < sz; ++i) if(a.data[i] != b.data[i]) return BIGINT_FALSE;`
followed by `return BIGINT_TRUE;`. -/
def cmpEqLoop (adata bdata : List Nat) (sz : Nat) (i : Nat) :
    Option BigintCmpRetval :=
  if _hlt : i < sz then
    match adata[i]?, bdata[i]? with
    | some x, some y =>
      if x ≠ y then some BIGINT_FALSE
      else cmpEqLoop adata bdata sz (i + 1)
    | _, _ => none
  else some BIGINT_TRUE
termination_by sz - i
decreasing_by omega

/-- `bigint_s_cmp_eq(a, b)` (operands passed by value, no writes). -/
def bigint_s_cmp_eq (a b : BigintS) : Option BigintCmpRetval :=
  if a.sz = 0 ∨ b.sz = 0 then some BIGINT_UNDEFINED
  else if a.sz ≠ b.sz then some BIGINT_FALSE
  else cmpEqLoop a.data b.data a.sz 0

/-! ### Basic facts about the constructors -/

lemma leBytes_length (k : Nat) (n : Int) : (leBytes k n).length = k := by
  unfold leBytes
  rw [List.length_map, List.length_range]

lemma leBytes_getElem? (k : Nat) (n : Int) (i : Nat) (h : i < k) :
    (leBytes k n)[i]? =
      some (((n % ((2 : Int) ^ (8 * k))).toNat / 2 ^ (8 * i)) % 256) := by
  unfold leBytes
  rw [List.getElem?_map, List.getElem?_range h]
  simp [Nat.shiftRight_eq_div_pow]

/-- C8: `bigint_s_init n` returns a signed bigint of size `n` whose `n`
octets are all zero; for `n = 0` it returns the empty value (size 0,
no buffer). -/
theorem init_allocates_zero_filled (n : Nat) :
    (bigint_s_init n).sz = n ∧
    (∀ i, i < n → (bigint_s_init n).data[i]? = some 0) ∧
    (n = 0 → (bigint_s_init n).data = []) := by
  unfold bigint_s_init BigintS.sz
  by_cases h : n > 0
  · rw [if_pos h]
    refine ⟨List.length_replicate n 0, fun i hi => ?_, fun h0 => absurd h0 (by omega)⟩
    rw [List.getElem?_replicate, if_pos hi]
  · have h0 : n = 0 := by omega
    subst h0
    simp

/-- Witness for C8 at `n = 3` and `n = 0`. -/
theorem init_allocates_zero_filled_witness :
    (bigint_s_init 3).sz = 3 ∧ (bigint_s_init 3).data[1]? = some 0 ∧
    (bigint_s_init 0).data = [] :=
  ⟨(init_allocates_zero_filled 3).1,
   (init_allocates_zero_filled 3).2.1 1 (by decide),
   (init_allocates_zero_filled 0).2.2 rfl⟩

/-- C7: for every primitive value `n` of width 8, 16, 32 or 64 bits,
`bigint_s_make{8,16,32,64} n` has size exactly `sizeof n` octets, and its
octet at index `i` is byte `i` of the little-endian two's-complement
representation of `n`, i.e. `((n mod 2^(8k)) / 2^(8i)) mod 256`. -/
theorem make_prim_size_and_le_bytes (n : Int) :
    ((bigint_s_make8 n).sz = 1 ∧ ∀ i, i < 1 →
      (bigint_s_make8 n).data[i]? =
        some (((n % ((2 : Int) ^ 8)).toNat / 2 ^ (8 * i)) % 256)) ∧
    ((bigint_s_make16 n).sz = 2 ∧ ∀ i, i < 2 →
      (bigint_s_make16 n).data[i]? =
        some (((n % ((2 : Int) ^ 16)).toNat / 2 ^ (8 * i)) % 256)) ∧
    ((bigint_s_make32 n).sz = 4 ∧ ∀ i, i < 4 →
      (bigint_s_make32 n).data[i]? =
        some (((n % ((2 : Int) ^ 32)).toNat / 2 ^ (8 * i)) % 256)) ∧
    ((bigint_s_make64 n).sz = 8 ∧ ∀ i, i < 8 →
      (bigint_s_make64 n).data[i]? =
        some (((n % ((2 : Int) ^ 64)).toNat / 2 ^ (8 * i)) % 256)) :=
  ⟨⟨leBytes_length 1 n, fun i hi => leBytes_getElem? 1 n i hi⟩,
   ⟨leBytes_length 2 n, fun i hi => leBytes_getElem? 2 n i hi⟩,
   ⟨leBytes_length 4 n, fun i hi => leBytes_getElem? 4 n i hi⟩,
   ⟨leBytes_length 8 n, fun i hi => leBytes_getElem? 8 n i hi⟩⟩

/-- Witness for C7 at `n = -2`: byte 0 of the 64-bit pattern is 254 and
byte 7 is 255. -/
theorem make_prim_size_and_le_bytes_witness :
    (bigint_s_make64 (-2)).sz = 8 ∧
    (bigint_s_make64 (-2)).data[0]? =
      some ((((-2 : Int) % ((2 : Int) ^ 64)).toNat / 2 ^ (8 * 0)) % 256) ∧
    (bigint_s_make64 (-2)).data[7]? =
      some ((((-2 : Int) % ((2 : Int) ^ 64)).toNat / 2 ^ (8 * 7)) % 256) :=
  ⟨(make_prim_size_and_le_bytes (-2)).2.2.2.1,
   (make_prim_size_and_le_bytes (-2)).2.2.2.2 0 (by decide),
   (make_prim_size_and_le_bytes (-2)).2.2.2.2 7 (by decide)⟩

/-- C4: when either operand is empty (size 0), `cmp_gt`, `cmp_ge` and
`cmp_eq` all return `BIGINT_UNDEFINED` (and leave the operands untouched),
never `BIGINT_TRUE` or `BIGINT_FALSE`. -/
theorem cmp_empty_operand_undefined (fuel : Nat) (a b : BigintS)
    (h : a.sz = 0 ∨ b.sz = 0) :
    bigint_s_cmp_gt fuel a b = (some BIGINT_UNDEFINED, a, b) ∧
    bigint_s_cmp_ge fuel a b = (some BIGINT_UNDEFINED, a, b) ∧
    bigint_s_cmp_eq a b = some BIGINT_UNDEFINED := by
  unfold bigint_s_cmp_gt bigint_s_cmp_ge bigint_s_cmp_impl bigint_s_cmp_eq
  rw [if_pos h, if_pos h, if_pos h]
  exact ⟨rfl, rfl, rfl⟩

/-- Witness for C4 with an empty left operand. -/
theorem cmp_empty_operand_undefined_witness :
    bigint_s_cmp_gt 5 ⟨[]⟩ (bigint_s_make8 0) =
      (some BIGINT_UNDEFINED, ⟨[]⟩, bigint_s_make8 0) ∧
    bigint_s_cmp_ge 5 ⟨[]⟩ (bigint_s_make8 0) =
      (some BIGINT_UNDEFINED, ⟨[]⟩, bigint_s_make8 0) ∧
    bigint_s_cmp_eq ⟨[]⟩ (bigint_s_make8 0) = some BIGINT_UNDEFINED :=
  cmp_empty_operand_undefined 5 ⟨[]⟩ (bigint_s_make8 0) (Or.inl rfl)

/-! ### The comparison scan mutates the caller's buffers and reads out of
bounds; the `dup` scan never exits -/

/-- C1 (defect): `cmp_gt` on two operands made from the 8-bit primitive -1
overwrites the most-significant octet of both caller-visible buffers:
the input octet is 255 (0xFF) and after the call the caller's buffer holds
127 (0x7F).  The sign-bit masking of `bigint_s_cmp_impl` acts directly on
the caller's storage, exactly the in-place clearing §9 of the spec calls a
defect. -/
theorem cmp_gt_clears_sign_bit_in_caller_buffer (fuel : Nat) :
    (bigint_s_make8 (-1)).data = [255] ∧
    (bigint_s_cmp_gt fuel (bigint_s_make8 (-1)) (bigint_s_make8 (-1))).2.1.data
      = [127] ∧
    (bigint_s_cmp_gt fuel (bigint_s_make8 (-1)) (bigint_s_make8 (-1))).2.2.data
      = [127] := by
  refine ⟨rfl, ?_, ?_⟩ <;> cases fuel <;> rfl

/-- C3: `cmp_gt(make8(5), make8(3))` does not return `BIGINT_TRUE`: the
final scan starts at index `sml_sz = 1`, one past the single valid index
of both 1-octet buffers, so however much fuel the scan is given the first
iteration already reads out of bounds (undefined behaviour in C, `none`
here). -/
theorem cmp_gt_make8_5_3_reads_out_of_bounds (fuel : Nat) :
    (bigint_s_cmp_gt fuel (bigint_s_make8 5) (bigint_s_make8 3)).1 = none := by
  cases fuel <;> rfl

/-- C9: the octet reads of the `cmp_gt`/`cmp_ge` scan are not all in
bounds: on the non-empty operands `make8 1` and `make8 1` the scan's first
read is at index 1, equal to both operands' size, so the embedding's read
returns `none` and the whole comparison aborts, for every fuel bound. -/
theorem cmp_scan_first_read_out_of_bounds (fuel : Nat) :
    0 < (bigint_s_make8 1).sz ∧
    (bigint_s_cmp_gt fuel (bigint_s_make8 1) (bigint_s_make8 1)).1 = none ∧
    (bigint_s_cmp_ge fuel (bigint_s_make8 1) (bigint_s_make8 1)).1 = none := by
  refine ⟨by decide, ?_, ?_⟩ <;> cases fuel <;> rfl

lemma dupLoop_eq_none (data : List Nat) :
    ∀ fuel i new_sz, dupLoop data fuel i new_sz = none := by
  intro fuel
  induction fuel with
  | zero => intro i new_sz; rfl
  | succ f ih =>
    intro i new_sz
    unfold dupLoop
    rw [if_pos (Nat.zero_le i)]
    cases hx : data[i]? with
    | none => rfl
    | some x => exact ih (u16dec i) (new_sz - (if x = 0 then 1 else 0))

lemma cmpScanLoop_ne_fallthrough (adata bdata : List Nat) (a_neg : Nat) :
    ∀ fuel i, cmpScanLoop adata bdata a_neg fuel i ≠ some none := by
  intro fuel
  induction fuel with
  | zero => intro i h; exact Option.noConfusion h
  | succ f ih =>
    intro i
    unfold cmpScanLoop
    rw [if_pos (Nat.zero_le i)]
    split
    · split
      · intro h; exact Option.noConfusion (Option.some.inj h)
      · split
        · intro h; exact Option.noConfusion (Option.some.inj h)
        · exact ih (u16dec i)
    · intro h; exact Option.noConfusion h

/-- C6: the octet-scanning loops do not reach an exit.  The `dup` trimming
scan runs its `u16` index below zero (the condition `i >= 0` is never
false), so under every fuel bound `bigint_s_dup` fails to produce a value,
on every input; and the comparison scan of `cmp_gt`/`cmp_ge` never reaches
its fall-through exit either — it only ever leaves by an early return, by
an out-of-range read, or by running out of fuel. -/
theorem dup_and_cmp_scan_loops_never_exit (fuel : Nat) (v : BigintS)
    (adata bdata : List Nat) (a_neg i : Nat) :
    bigint_s_dup fuel v = none ∧
    cmpScanLoop adata bdata a_neg fuel i ≠ some none := by
  constructor
  · unfold bigint_s_dup
    rw [dupLoop_eq_none v.data fuel (u16dec v.sz) v.sz]
  · exact cmpScanLoop_ne_fallthrough adata bdata a_neg fuel i

/-- C5: `bigint_s_dup` applied to `make8 1` (a well-formed one-octet value)
never returns the trimmed deep copy the spec describes: its scan loop's
`u16` condition `i >= 0` never becomes false, so the function produces no
value under any fuel bound. -/
theorem dup_make8_one_never_returns (fuel : Nat) :
    bigint_s_dup fuel (bigint_s_make8 1) = none := by
  unfold bigint_s_dup
  rw [dupLoop_eq_none]

/-! ### Characterisation of `bigint_s_cmp_eq` -/

lemma cmpEqLoop_exit (adata bdata : List Nat) (sz i : Nat) (h : ¬ i < sz) :
    cmpEqLoop adata bdata sz i = some BIGINT_TRUE := by
  unfold cmpEqLoop
  rw [dif_neg h]

lemma cmpEqLoop_step (adata bdata : List Nat) (sz i : Nat) (hlt : i < sz)
    (hai : i < adata.length) (hbi : i < bdata.length) :
    cmpEqLoop adata bdata sz i =
      if adata[i] ≠ bdata[i] then some BIGINT_FALSE
      else cmpEqLoop adata bdata sz (i + 1) := by
  conv_lhs => unfold cmpEqLoop
  rw [dif_pos hlt, List.getElem?_eq_getElem hai, List.getElem?_eq_getElem hbi]

lemma cmpEqLoop_true_iff (adata bdata : List Nat) (sz : Nat)
    (ha : sz ≤ adata.length) (hb : sz ≤ bdata.length) :
    ∀ n i, sz ≤ i + n →
      (cmpEqLoop adata bdata sz i = some BIGINT_TRUE ↔
        ∀ j, i ≤ j → j < sz → adata[j]? = bdata[j]?) := by
  intro n
  induction n with
  | zero =>
    intro i hi
    rw [cmpEqLoop_exit adata bdata sz i (by omega)]
    exact ⟨fun _ j hij hj => absurd hj (by omega), fun _ => rfl⟩
  | succ n ih =>
    intro i hi
    by_cases hlt : i < sz
    · have hai : i < adata.length := Nat.lt_of_lt_of_le hlt ha
      have hbi : i < bdata.length := Nat.lt_of_lt_of_le hlt hb
      rw [cmpEqLoop_step adata bdata sz i hlt hai hbi]
      by_cases hxy : adata[i] = bdata[i]
      · rw [if_neg (by simpa using hxy), ih (i + 1) (by omega)]
        constructor
        · intro h j hij hj
          rcases Nat.eq_or_lt_of_le hij with heq | hlt2
          · subst heq
            rw [List.getElem?_eq_getElem hai, List.getElem?_eq_getElem hbi, hxy]
          · exact h j hlt2 hj
        · intro h j hij hj
          exact h j (by omega) hj
      · rw [if_pos (by simpa using hxy)]
        constructor
        · intro h
          exact absurd h (by decide)
        · intro h
          exfalso
          have hji := h i Nat.le.refl hlt
          rw [List.getElem?_eq_getElem hai, List.getElem?_eq_getElem hbi] at hji
          exact hxy (Option.some.inj hji)
    · rw [cmpEqLoop_exit adata bdata sz i hlt]
      exact ⟨fun _ j hij hj => absurd hj (by omega), fun _ => rfl⟩

lemma cmpEqLoop_false_or_true (adata bdata : List Nat) (sz : Nat)
    (ha : sz ≤ adata.length) (hb : sz ≤ bdata.length) :
    ∀ n i, sz ≤ i + n →
      cmpEqLoop adata bdata sz i = some BIGINT_FALSE ∨
      cmpEqLoop adata bdata sz i = some BIGINT_TRUE := by
  intro n
  induction n with
  | zero =>
    intro i hi
    exact Or.inr (cmpEqLoop_exit adata bdata sz i (by omega))
  | succ n ih =>
    intro i hi
    by_cases hlt : i < sz
    · have hai : i < adata.length := Nat.lt_of_lt_of_le hlt ha
      have hbi : i < bdata.length := Nat.lt_of_lt_of_le hlt hb
      rw [cmpEqLoop_step adata bdata sz i hlt hai hbi]
      by_cases hxy : adata[i] ≠ bdata[i]
      · rw [if_pos hxy]
        exact Or.inl rfl
      · rw [if_neg hxy]
        exact ih (i + 1) (by omega)
    · exact Or.inr (cmpEqLoop_exit adata bdata sz i hlt)

/-- C2: `bigint_s_cmp_eq` returns `BIGINT_UNDEFINED` when either operand
has size 0; otherwise it returns `BIGINT_FALSE` when the sizes differ,
`BIGINT_FALSE` when some octet at a common index differs, and
`BIGINT_TRUE` exactly when the sizes are equal and all octets are pairwise
equal. -/
theorem cmp_eq_tristate_characterisation (a b : BigintS) :
    (a.sz = 0 ∨ b.sz = 0 → bigint_s_cmp_eq a b = some BIGINT_UNDEFINED) ∧
    (a.sz ≠ 0 → b.sz ≠ 0 → a.sz ≠ b.sz →
      bigint_s_cmp_eq a b = some BIGINT_FALSE) ∧
    (a.sz ≠ 0 → b.sz ≠ 0 →
      (bigint_s_cmp_eq a b = some BIGINT_TRUE ↔
        a.sz = b.sz ∧ ∀ i, i < a.sz → a.data[i]? = b.data[i]?)) ∧
    (a.sz ≠ 0 → b.sz ≠ 0 →
      (bigint_s_cmp_eq a b = some BIGINT_FALSE ↔
        ¬(a.sz = b.sz ∧ ∀ i, i < a.sz → a.data[i]? = b.data[i]?))) := by
  have hlen_a : a.sz ≤ a.data.length := Nat.le_of_eq rfl
  refine ⟨fun h => ?_, fun ha hb hne => ?_, fun ha hb => ?_, fun ha hb => ?_⟩
  · unfold bigint_s_cmp_eq
    rw [if_pos h]
  · unfold bigint_s_cmp_eq
    rw [if_neg (by tauto), if_pos hne]
  · unfold bigint_s_cmp_eq
    rw [if_neg (by tauto)]
    by_cases hsz : a.sz = b.sz
    · rw [if_neg (by omega)]
      rw [cmpEqLoop_true_iff a.data b.data a.sz hlen_a (by rw [hsz]; exact Nat.le_of_eq rfl) a.sz 0
        (by omega)]
      constructor
      · intro h
        exact ⟨hsz, fun i hi => h i (Nat.zero_le i) hi⟩
      · intro h j _ hj
        exact h.2 j hj
    · rw [if_pos hsz]
      constructor
      · intro h
        exact absurd h (by decide)
      · intro h
        exact absurd h.1 hsz
  · unfold bigint_s_cmp_eq
    rw [if_neg (by tauto)]
    by_cases hsz : a.sz = b.sz
    · rw [if_neg (by omega)]
      have htrue := cmpEqLoop_true_iff a.data b.data a.sz hlen_a
        (by rw [hsz]; exact Nat.le_of_eq rfl) a.sz 0 (by omega)
      have hdich := cmpEqLoop_false_or_true a.data b.data a.sz hlen_a
        (by rw [hsz]; exact Nat.le_of_eq rfl) a.sz 0 (by omega)
      constructor
      · intro h hconj
        have : cmpEqLoop a.data b.data a.sz 0 = some BIGINT_TRUE :=
          htrue.2 fun j _ hj => hconj.2 j hj
        rw [h] at this
        exact absurd (Option.some.inj this) (by decide)
      · intro h
        rcases hdich with hf | ht
        · exact hf
        · exact absurd ⟨hsz, fun i hi => (htrue.1 ht) i (Nat.zero_le i) hi⟩ h
    · rw [if_pos hsz]
      exact ⟨fun _ hconj => hsz hconj.1, fun _ => rfl⟩

/-- Witness for C2: an 8-bit 5 differs from a 16-bit 5 (size mismatch gives
false) and equals itself (true). -/
theorem cmp_eq_tristate_characterisation_witness :
    bigint_s_cmp_eq (bigint_s_make8 5) (bigint_s_make16 5) = some BIGINT_FALSE ∧
    bigint_s_cmp_eq (bigint_s_make8 5) (bigint_s_make8 5) = some BIGINT_TRUE :=
  ⟨(cmp_eq_tristate_characterisation (bigint_s_make8 5) (bigint_s_make16 5)).2.1
      (by decide) (by decide) (by decide),
   ((cmp_eq_tristate_characterisation (bigint_s_make8 5) (bigint_s_make8 5)).2.2.1
      (by decide) (by decide)).2 ⟨rfl, by decide⟩⟩

/-! ### Non-empty comparisons never report `BIGINT_UNDEFINED` -/

lemma cmpBigLoop_ne_undefined (bigdata : List Nat) (sml_sz : Nat)
    (ret : BigintCmpRetval) (hret : ret ≠ BIGINT_UNDEFINED) :
    ∀ fuel i, cmpBigLoop bigdata sml_sz ret fuel i ≠ some (some BIGINT_UNDEFINED) := by
  intro fuel
  induction fuel with
  | zero => intro i h; exact Option.noConfusion h
  | succ f ih =>
    intro i
    unfold cmpBigLoop
    by_cases hge : i ≥ sml_sz
    · rw [if_pos hge]
      split
      · intro h; exact Option.noConfusion h
      · split
        · intro h
          exact hret (Option.some.inj (Option.some.inj h))
        · exact ih (u16dec i)
    · rw [if_neg hge]
      intro h
      exact Option.noConfusion (Option.some.inj h)

lemma cmpScanLoop_ne_undefined (adata bdata : List Nat) (a_neg : Nat) :
    ∀ fuel i, cmpScanLoop adata bdata a_neg fuel i ≠ some (some BIGINT_UNDEFINED) := by
  intro fuel
  induction fuel with
  | zero => intro i h; exact Option.noConfusion h
  | succ f ih =>
    intro i
    unfold cmpScanLoop
    rw [if_pos (Nat.zero_le i)]
    split
    · split
      · split <;> decide
      · split
        · split <;> decide
        · exact ih (u16dec i)
    · intro h; exact Option.noConfusion h

lemma cmpPre_ne_undefined (a2 b2 : BigintS) (a_neg fuel : Nat) :
    cmpPre a2 b2 a_neg fuel ≠ some (some BIGINT_UNDEFINED) := by
  unfold cmpPre
  split
  · apply cmpBigLoop_ne_undefined
    split
    · split <;> decide
    · split <;> decide
  · intro h
    exact Option.noConfusion (Option.some.inj h)

lemma cmp_impl_ne_undefined (fuel : Nat) (a b : BigintS) (orequ : Bool)
    (ha : a.sz ≠ 0) (hb : b.sz ≠ 0) :
    (bigint_s_cmp_impl fuel a b orequ).1 ≠ some BIGINT_UNDEFINED := by
  unfold bigint_s_cmp_impl
  rw [if_neg (by tauto)]
  split
  · split
    · dsimp only
      split <;> decide
    · split
      · split
        next heq =>
          dsimp only
          intro h
          exact Option.noConfusion h
        next r heq =>
          dsimp only
          intro h
          rw [Option.some.inj h] at heq
          exact cmpPre_ne_undefined _ _ _ _ heq
        next heq =>
          split
          next heq2 =>
            dsimp only
            intro h
            exact Option.noConfusion h
          next r heq2 =>
            dsimp only
            intro h
            rw [Option.some.inj h] at heq2
            exact cmpScanLoop_ne_undefined _ _ _ _ _ heq2
          next heq2 =>
            dsimp only
            cases orequ <;> decide
      · dsimp only
        intro h
        exact Option.noConfusion h
  · dsimp only
    intro h
    exact Option.noConfusion h

/-- C10: each `bigint_s_make{8,16,32,64}` produces a value of positive
size, and a comparison of non-empty operands (in particular operands both
freshly made from primitives) never returns `BIGINT_UNDEFINED` — that
value is produced only by the empty-operand guard. -/
theorem fresh_make_cmp_never_undefined (fuel : Nat) (a b : BigintS)
    (ha : 0 < a.sz) (hb : 0 < b.sz) :
    (∀ n : Int, 0 < (bigint_s_make8 n).sz ∧ 0 < (bigint_s_make16 n).sz ∧
      0 < (bigint_s_make32 n).sz ∧ 0 < (bigint_s_make64 n).sz) ∧
    (bigint_s_cmp_gt fuel a b).1 ≠ some BIGINT_UNDEFINED ∧
    (bigint_s_cmp_ge fuel a b).1 ≠ some BIGINT_UNDEFINED ∧
    bigint_s_cmp_eq a b ≠ some BIGINT_UNDEFINED := by
  refine ⟨fun n => ?_, ?_, ?_, ?_⟩
  · refine ⟨?_, ?_, ?_, ?_⟩ <;>
      · show 0 < (leBytes _ n).length
        rw [leBytes_length]
        omega
  · exact cmp_impl_ne_undefined fuel a b false (by omega) (by omega)
  · exact cmp_impl_ne_undefined fuel a b true (by omega) (by omega)
  · unfold bigint_s_cmp_eq
    rw [if_neg (by omega)]
    by_cases hsz : a.sz ≠ b.sz
    · rw [if_pos hsz]
      decide
    · rw [if_neg hsz]
      rcases cmpEqLoop_false_or_true a.data b.data a.sz (Nat.le_of_eq rfl)
          (by rw [show a.sz = b.sz by omega]; exact Nat.le_of_eq rfl) a.sz 0
          (by omega) with hf | ht
      · rw [hf]; decide
      · rw [ht]; decide

/-- Witness for C10 on operands freshly made from the 8-bit primitive 0. -/
theorem fresh_make_cmp_never_undefined_witness :
    (bigint_s_cmp_gt 5 (bigint_s_make8 0) (bigint_s_make8 0)).1 ≠
      some BIGINT_UNDEFINED ∧
    bigint_s_cmp_eq (bigint_s_make8 0) (bigint_s_make8 0) ≠
      some BIGINT_UNDEFINED :=
  ⟨(fresh_make_cmp_never_undefined 5 (bigint_s_make8 0) (bigint_s_make8 0)
      (by decide) (by decide)).2.1,
   (fresh_make_cmp_never_undefined 5 (bigint_s_make8 0) (bigint_s_make8 0)
      (by decide) (by decide)).2.2.2⟩
